import Mathlib

/-!
Shallow embedding of the github-helpers tools
(gh_check_ahead.py, gh_orphaned_prs.py, gh_prune_branches.py, github_utils.py).

Network and subprocess effects are modelled by explicit oracle values passed
to each function: an HTTP request becomes a `FetchOutcome` (a response carrying
a status code, the rate-limit reset header and the parsed JSON body, or a
raised request exception), a gh CLI invocation becomes a `GhExec` value, and
each bounded concurrent fan-out becomes a pure traversal of the submitted
items.  Results of a fan-out arrive in non-deterministic completion order in
the source; the traversal here is one fixed linearisation (submission order),
and every theorem below that depends on order says so explicitly.
-/

/-- JSON body of a GitHub compare response as the tools read it, via
defaulting lookups such as `comparison.get("ahead_by", 0)`.  Fields are
optional because a key may be absent from the parsed dictionary. -/
structure CompareJson where
  ahead_by : Option Nat
  behind_by : Option Nat
  status : Option String
deriving DecidableEq

/-- Outcome of one `requests.get` call: a response (HTTP status code,
`X-RateLimit-Reset` header, parsed body) or a raised request exception. -/
inductive FetchOutcome where
  | resp (status_code : Nat) (reset : Option Int) (body : CompareJson)
  | raised
deriving DecidableEq

/-- Trace of the inline rate-limit handling around a single request: the
response the surrounding code goes on to use, the number of HTTP requests
issued, and the duration of the sleep when one happened. -/
structure RetryTrace where
  final : FetchOutcome
  requests : Nat
  sleep : Option Int
deriving DecidableEq

/-- The rate-limit pattern shared by gh_check_ahead.compare_branches and
check_branch_exists and by gh_orphaned_prs.is_commit_in_branch: when the
response is HTTP 429, sleep `max(1, reset - now)` seconds (the header
defaulting to `now + 60`) and issue the request once more; otherwise the
first response stands.  A first request that raises propagates before the
429 check is reached, so no retry happens for it. -/
def rateLimitedGet (now : Int) (first retry : FetchOutcome) : RetryTrace :=
  match first with
  | FetchOutcome.raised => { final := FetchOutcome.raised, requests := 1, sleep := none }
  | FetchOutcome.resp code reset _ =>
    if code == 429 then
      let reset_time := reset.getD (now + 60)
      let sleep_time := max 1 (reset_time - now)
      { final := retry, requests := 2, sleep := some sleep_time }
    else
      { final := first, requests := 1, sleep := none }

/-- Modelled from the spec: the `status` field of the AheadBehind relation as
the platform derives it from the two counts (spec data model and glossary:
identical, ahead, behind, diverged).  Used only as a well-formedness
hypothesis on compare responses; it is not code of this repository. -/
def canonicalStatus (ahead_by behind_by : Nat) : String :=
  if ahead_by = 0 ∧ behind_by = 0 then "identical"
  else if behind_by = 0 then "ahead"
  else if ahead_by = 0 then "behind"
  else "diverged"

/-- A compare body is well formed when its status field agrees with the one
the platform derives from its counts. -/
def WellFormedCompare (c : CompareJson) : Prop :=
  c.status.getD "unknown" = canonicalStatus (c.ahead_by.getD 0) (c.behind_by.getD 0)

namespace CheckAhead

/-- Row appended to found_repos by gh_check_ahead.check_repo_branches for a
reportable repository. -/
structure AheadRow where
  name : String
  url : String
  ahead_by : Nat
  behind_by : Nat
  status : String
  head_branch : String
  base_branch : String
deriving DecidableEq

/-- Oracle for the per-repository network calls made by check_repo_branches:
get_default_branch (None on a non-200 response), check_branch_exists, and
compare_branches base head (None covers the non-200 final response after the
rate-limit retry; a raised request propagates out of check_repo_branches and
is caught at future.result() in main, which skips the repository, the same
absence of a row as None here). -/
structure RepoEnv where
  default_branch : Option String
  branch_exists : String → Bool
  compare : String → String → Option CompareJson

/-- gh_check_ahead.compare_branches (lines 229-247): rate-limited GET of
compare/base...head; a 200 final response yields the parsed body, any other
final status yields None, and a raised request propagates to the caller. -/
def compare_branches (now : Int) (first retry : FetchOutcome) :
    Except Unit (Option CompareJson) :=
  match (rateLimitedGet now first retry).final with
  | FetchOutcome.raised => Except.error ()
  | FetchOutcome.resp code _ body =>
    if code == 200 then Except.ok (some body) else Except.ok none

/-- gh_check_ahead.check_repo_branches (lines 250-286): resolve the base
branch (default branch when unspecified), require both branches to exist,
fetch the comparison, and emit a row only when ahead_by > 0 and the status is
ahead or diverged.  A successful compare response is a non-empty JSON object,
so the Python truthiness test on the dictionary is `some`/`none` here. -/
def check_repo_branches (env : RepoEnv) (org repo head_branch : String)
    (base_branch : Option String) : Option AheadRow :=
  match (match base_branch with | none => env.default_branch | some b => some b) with
  | none => none
  | some base =>
    if !env.branch_exists head_branch then none
    else if !env.branch_exists base then none
    else
      match env.compare base head_branch with
      | none => none
      | some comparison =>
        let ahead_by := comparison.ahead_by.getD 0
        let behind_by := comparison.behind_by.getD 0
        let status := comparison.status.getD "unknown"
        if 0 < ahead_by ∧ (status = "ahead" ∨ status = "diverged") then
          some { name := repo,
                 url := "https://github.com/" ++ org ++ "/" ++ repo,
                 ahead_by := ahead_by, behind_by := behind_by, status := status,
                 head_branch := head_branch, base_branch := base }
        else none

/-- gh_check_ahead.main line 357: found_repos.sort(key=name), a stable sort
on the repository name. -/
def sortAhead (rows : List AheadRow) : List AheadRow :=
  rows.mergeSort (fun a b => decide (a.name ≤ b.name))

/-- Python str padding as performed by the f-string width specifiers: pad
with spaces to the given width, leave longer strings unchanged. -/
def ljustStr (s : String) (w : Nat) : String :=
  s ++ String.mk (List.replicate (w - s.length) ' ')

/-- The header line printed by gh_check_ahead.main (line 373); the REPO
column is printed unconditionally, whatever the result set. -/
def header (repo_width head_width base_width : Nat) : String :=
  ljustStr "REPO" repo_width ++ "  " ++ ljustStr "HEAD" head_width ++ "  " ++
    ljustStr "BASE" base_width ++ "  AHEAD  BEHIND  STATUS"

end CheckAhead

namespace OrphanedPrs

/-- The fields of a merged-PR object that gh_orphaned_prs reads
(base.ref and head.ref flattened). -/
structure PRData where
  number : Nat
  title : String
  html_url : String
  merged_at : String
  base_ref : String
  head_ref : String
  user : String
deriving DecidableEq

/-- Entry of the orphaned-PR result list built by
check_pr_commits_concurrent. -/
structure OrphanedPR where
  number : Nat
  title : String
  url : String
  merged_at : String
  source_branch : String
  target_branch : String
  repository : String
  user : String
  missing_commits : List String
deriving DecidableEq

/-- gh_orphaned_prs.is_commit_in_branch (lines 283-311): rate-limited GET of
compare/commit_sha...branch; on a 200 final response the commit is reachable
iff the status field is identical or ahead (the code also reads ahead_by with
default 1 but never uses it); 404, any other status code, and a raised
request all yield False. -/
def is_commit_in_branch (now : Int) (first retry : FetchOutcome) : Bool :=
  match (rateLimitedGet now first retry).final with
  | FetchOutcome.raised => false
  | FetchOutcome.resp code _ body =>
    if code == 200 then
      let status := body.status.getD "unknown"
      status == "identical" || status == "ahead"
    else if code == 404 then false
    else false

/-- The missing_commits list collected by check_pr_commits_concurrent: a
commit is missing when its check returned False or the check raised (the
except branch around future.result() appends the commit).  The concurrent
completion order is modelled as submission order; the properties proved
about this list are order-independent. -/
def missingCommitsOf (check : String → String → Except Unit Bool)
    (target_branch : String) (commits : List String) : List String :=
  commits.filter fun commit_sha =>
    match check commit_sha target_branch with
    | Except.ok true => false
    | Except.ok false => true
    | Except.error _ => true

/-- gh_orphaned_prs.check_pr_commits_concurrent (lines 314-358): fetch the
commit list of the PR (a raised request there drops the PR); check every
commit against the PR's own recorded base branch; return an orphaned-PR row
iff the missing list is non-empty. -/
def check_pr_commits_concurrent (owner repo : String)
    (fetchCommits : Except Unit (List String))
    (check : String → String → Except Unit Bool) (pr_data : PRData) :
    Option OrphanedPR :=
  let target_branch := pr_data.base_ref
  match fetchCommits with
  | Except.error _ => none
  | Except.ok commits =>
    let missing_commits := missingCommitsOf check target_branch commits
    if missing_commits.isEmpty then none
    else
      some { number := pr_data.number, title := pr_data.title,
             url := pr_data.html_url, merged_at := pr_data.merged_at,
             source_branch := pr_data.head_ref, target_branch := target_branch,
             repository := owner ++ "/" ++ repo, user := pr_data.user,
             missing_commits := missing_commits }

/-- The pagination loop of gh_orphaned_prs.fetch_merged_prs (lines 220-266):
`pages p` is the item list of search page `p` (the search request succeeding,
otherwise raise_for_status propagates out of the function), `fetchPR` the
per-item PR fetch (None for a non-200 response, the item being skipped).
Stop on an empty page; after each page, stop when the incremented page number
exceeds 10 or the page was short.  Within a page the PRs are collected in
completion order; this linearisation keeps item order, and the properties
proved below are order-independent. -/
def fetchPagesLoop {α : Type} (pages : Nat → List α)
    (fetchPR : α → Option PRData) (page : Nat) : List PRData :=
  let items := pages page
  if items.isEmpty then []
  else
    let prs := items.filterMap fetchPR
    if 10 < page + 1 ∨ items.length < 100 then prs
    else prs ++ fetchPagesLoop pages fetchPR (page + 1)
termination_by 11 - page
decreasing_by omega

/-- gh_orphaned_prs.fetch_merged_prs: the loop starts at page 1. -/
def fetch_merged_prs {α : Type} (pages : Nat → List α)
    (fetchPR : α → Option PRData) : List PRData :=
  fetchPagesLoop pages fetchPR 1

/-- gh_orphaned_prs.main line 543: sort(key=merged_at, reverse=True), a
stable sort in descending merge-timestamp order. -/
def sortOrphaned (prs : List OrphanedPR) : List OrphanedPR :=
  prs.mergeSort (fun a b => decide (b.merged_at ≤ a.merged_at))

/-- Two orphaned-PR rows that share a merge timestamp, used to exhibit the
behaviour of the reachability sort on a key tie. -/
def sampleTieA : OrphanedPR :=
  { number := 41, title := "first", url := "u1",
    merged_at := "2024-01-01T00:00:00Z", source_branch := "f1",
    target_branch := "main", repository := "acme/app", user := "alice",
    missing_commits := ["aaa"] }

/-- Second row of the tie: same merged_at, different PR number. -/
def sampleTieB : OrphanedPR :=
  { number := 42, title := "second", url := "u2",
    merged_at := "2024-01-01T00:00:00Z", source_branch := "f2",
    target_branch := "main", repository := "acme/app", user := "bob",
    missing_commits := ["bbb"] }

/-- A row with a merge timestamp distinct from the tie rows. -/
def sampleLater : OrphanedPR :=
  { number := 43, title := "third", url := "u3",
    merged_at := "2024-02-02T00:00:00Z", source_branch := "f3",
    target_branch := "main", repository := "acme/app", user := "carol",
    missing_commits := ["ccc"] }

/-- The header line printed by gh_orphaned_prs.main (line 562): its columns
are ID, TITLE, BRANCH, TARGET, MERGED — no repository column is ever
printed. -/
def header (id_w title_w branch_w target_w : Nat) : String :=
  CheckAhead.ljustStr "ID" id_w ++ "  " ++ CheckAhead.ljustStr "TITLE" title_w
    ++ "  " ++ CheckAhead.ljustStr "BRANCH" branch_w ++ "  "
    ++ CheckAhead.ljustStr "TARGET" target_w ++ "  MERGED"

/-- One row line printed by gh_orphaned_prs.main (lines 565-572): the PR id,
the truncated title, source branch and target branch, and the date part of
merged_at — the row's repository field is never consulted when the row is
rendered. -/
def renderRow (id_w title_w branch_w target_w : Nat) (pr : OrphanedPR) :
    String :=
  let pr_id := "#" ++ toString pr.number
  let title := if title_w < pr.title.length then pr.title.take title_w
    else pr.title
  let branch := if branch_w < pr.source_branch.length
    then pr.source_branch.take branch_w else pr.source_branch
  let target := if target_w < pr.target_branch.length
    then pr.target_branch.take target_w else pr.target_branch
  let merged_date := (pr.merged_at.splitOn "T").headD ""
  CheckAhead.ljustStr pr_id id_w ++ "  " ++ CheckAhead.ljustStr title title_w
    ++ "  " ++ CheckAhead.ljustStr branch branch_w ++ "  "
    ++ CheckAhead.ljustStr target target_w ++ "  " ++ merged_date

end OrphanedPrs

namespace GithubUtils

/-- Outcome of the `gh repo list` subprocess in
github_utils.get_organization_repos: the call raised an OSError-style
exception (e.g. the gh executable is missing — not caught by the helper),
raised a SubprocessError (caught), or exited with a return code and, when
the code is zero, the json.loads parse of its stdout (`none` models a
JSONDecodeError, which is caught). -/
inductive GhExec where
  | raisedOS
  | raisedSubprocess
  | exited (returncode : Int) (parsed : Option (List String))
deriving DecidableEq

/-- github_utils.get_organization_repos (lines 61-74): a non-zero exit status
or any caught exception yields an empty list; only an uncaught exception
escapes to the caller. -/
def get_organization_repos (run : GhExec) : Except Unit (List String) :=
  match run with
  | GhExec.raisedOS => Except.error ()
  | GhExec.raisedSubprocess => Except.ok []
  | GhExec.exited returncode parsed =>
    if returncode ≠ 0 then Except.ok []
    else
      match parsed with
      | none => Except.ok []
      | some names => Except.ok names

/-- Outcome of one `gh api` subprocess invocation: an uncaught OSError-style
raise (e.g. the gh executable is missing — it escapes the helper), a caught
SubprocessError, or an exit with a return code and, when the code is zero,
the json.loads parse of its stdout (`none` models a JSONDecodeError, which
is caught). -/
inductive GhApiOutcome where
  | raisedOS
  | raisedSubprocess
  | exited (returncode : Int) (parsed : Option CompareJson)
deriving DecidableEq

/-- github_utils.compare_branches (lines 104-116): a single gh api
invocation of compare/base...head with no rate-limit handling of any kind —
the command is run exactly once, so of `attempts i` (the outcome the
(i+1)-th invocation of the command would have) only `attempts 0` is ever
consulted.  A rate-limited call surfaces as a non-zero gh exit status and
yields None at once: no sleep, no retry. -/
def compare_branches (attempts : Nat → GhApiOutcome) :
    Except Unit (Option CompareJson) :=
  match attempts 0 with
  | GhApiOutcome.raisedOS => Except.error ()
  | GhApiOutcome.raisedSubprocess => Except.ok none
  | GhApiOutcome.exited returncode parsed =>
    if returncode ≠ 0 then Except.ok none
    else
      match parsed with
      | none => Except.ok none
      | some body => Except.ok (some body)

end GithubUtils

namespace PruneBranches

/-- Dictionary returned by check_branch_prunable for a prunable branch. -/
structure PrunableInfo where
  branch : String
  behind_by : Nat
  can_prune : Bool
deriving DecidableEq

/-- gh_prune_branches.check_branch_prunable (lines 79-100): the default
branch itself is skipped; `compare base head` is github_utils.compare_branches
through the gh CLI, with None covering a failed invocation or unparseable
output (a successful compare response is a non-empty JSON object, so Python
dictionary truthiness is `some`/`none` here); a branch is prunable exactly
when the comparison reports ahead_by == 0, behind_by being only recorded. -/
def check_branch_prunable (compare : String → String → Option CompareJson)
    (branch default_branch : String) : Option PrunableInfo :=
  if branch == default_branch then none
  else
    match compare default_branch branch with
    | none => none
    | some comparison =>
      let ahead_by := comparison.ahead_by.getD 0
      let behind_by := comparison.behind_by.getD 0
      if ahead_by == 0 then
        some { branch := branch, behind_by := behind_by, can_prune := true }
      else none

/-- One entry of all_prunable_branches in gh_prune_branches.main: the
check_branch_prunable dictionary extended with the repository and
default_branch fields added by check_repository_branches (lines 140-141). -/
structure ReportRow where
  branch : String
  behind_by : Nat
  repository : String
  default_branch : String
deriving DecidableEq

/-- main line 211: `set(branch['repository'] for ...)` — the distinct
repository names of the result set. -/
def uniqueRepositories (rows : List ReportRow) : List String :=
  (rows.map (fun r => r.repository)).dedup

/-- main line 212: the repository column is shown iff the distinct repository
count exceeds one.  Organization-wide mode does not enter this decision. -/
def show_repo_column (rows : List ReportRow) : Bool :=
  decide (1 < (uniqueRepositories rows).length)

/-- Modelled from the spec: the column-visibility rule as the spec states it
— shown when the results span more than one repository OR the operation was
organization-wide.  Stated from the spec's words only to be compared with
show_repo_column. -/
def specShowRepoColumn (org_wide : Bool) (rows : List ReportRow) : Bool :=
  decide (1 < (uniqueRepositories rows).length) || org_wide

/-- main line 208: sort key (repository, branch); Python tuple comparison is
lexicographic. -/
def rowLe (a b : ReportRow) : Bool :=
  decide (a.repository < b.repository) ||
    (decide (a.repository = b.repository) && decide (a.branch ≤ b.branch))

/-- main line 208: all_prunable_branches.sort(key=(repository, branch)), a
stable lexicographic sort. -/
def sortPrunable (rows : List ReportRow) : List ReportRow :=
  rows.mergeSort rowLe

/-- The wildcard-target enumeration step of gh_prune_branches.main
(lines 182-189): a repository listing that raises is caught and the program
exits with status 1; otherwise main proceeds with whatever list the helper
returned, including the empty one. -/
def enumeratePhase (run : GithubUtils.GhExec) : Except Int (List String) :=
  match GithubUtils.get_organization_repos run with
  | Except.error _ => Except.error 1
  | Except.ok repos => Except.ok repos

/-- Exit status of a wildcard-mode run as a function of the listing outcome:
after a successful enumeration, main runs to completion and the process exits
with status 0 (there is no later sys.exit call). -/
def mainExitStatus (run : GithubUtils.GhExec) : Int :=
  match enumeratePhase run with
  | Except.error code => code
  | Except.ok _ => 0

/-- The repository listing "failed outright" at this outcome: the gh command
raised or exited with a non-zero status. -/
def listingFails (run : GithubUtils.GhExec) : Bool :=
  match run with
  | GithubUtils.GhExec.raisedOS => true
  | GithubUtils.GhExec.raisedSubprocess => true
  | GithubUtils.GhExec.exited returncode _ => decide (returncode ≠ 0)

end PruneBranches

/-! ## Theorems -/

/-- C1: In ahead/behind mode, for a repository whose head and base branch
both exist and whose comparison fetch succeeds (with the status field the
platform derives from the two counts), check_repo_branches emits a result
row if and only if ahead_by > 0; in particular no row is ever emitted when
ahead_by = 0. -/
theorem checkAhead_reports_iff_ahead_positive
    (env : CheckAhead.RepoEnv) (org repo head base : String) (c : CompareJson)
    (hh : env.branch_exists head = true) (hb : env.branch_exists base = true)
    (hc : env.compare base head = some c) (hw : WellFormedCompare c) :
    (CheckAhead.check_repo_branches env org repo head (some base)).isSome
      ↔ 0 < c.ahead_by.getD 0 := by
  unfold CheckAhead.check_repo_branches
  simp only [hh, hb, hc, Bool.not_true, Bool.false_eq_true, if_false]
  unfold WellFormedCompare at hw
  rcases Nat.eq_zero_or_pos (c.ahead_by.getD 0) with h0 | hpos
  · rw [h0]
    simp
  · have hst : c.status.getD "unknown" = "ahead" ∨ c.status.getD "unknown" = "diverged" := by
      rw [hw]
      unfold canonicalStatus
      rcases Nat.eq_zero_or_pos (c.behind_by.getD 0) with hb0 | hbpos
      · left
        rw [if_neg (by omega), if_pos hb0]
      · right
        rw [if_neg (by omega), if_neg (by omega), if_neg (by omega)]
    rw [if_pos ⟨hpos, hst⟩]
    simpa using hpos

/-- Witness for C1: a concrete environment where feature-x is 3 commits
ahead of main; the hypotheses hold by computation and a row is emitted. -/
theorem checkAhead_reports_iff_ahead_positive_witness :
    (CheckAhead.check_repo_branches
        { default_branch := some "main",
          branch_exists := fun _ => true,
          compare := fun _ _ =>
            some { ahead_by := some 3, behind_by := some 0, status := some "ahead" } }
        "acme" "app" "feature-x" (some "main")).isSome
      ↔ 0 < (({ ahead_by := some 3, behind_by := some 0,
                status := some "ahead" } : CompareJson).ahead_by.getD 0) :=
  checkAhead_reports_iff_ahead_positive _ "acme" "app" "feature-x" "main" _
    rfl rfl rfl (by simp [WellFormedCompare, canonicalStatus])

/-- C3: In prunability mode a branch is classified prunable iff it is not the
default branch, the comparison against the default branch succeeds, and the
reported ahead_by is zero — behind_by plays no part; the default branch
itself is never classified prunable. -/
theorem prunable_iff_zero_ahead
    (compare : String → String → Option CompareJson)
    (branch default_branch : String) :
    ((PruneBranches.check_branch_prunable compare branch default_branch).isSome
        ↔ branch ≠ default_branch ∧
            ∃ c, compare default_branch branch = some c ∧ c.ahead_by.getD 0 = 0)
      ∧ PruneBranches.check_branch_prunable compare default_branch default_branch
          = none := by
  constructor
  · unfold PruneBranches.check_branch_prunable
    by_cases hbd : branch = default_branch
    · simp [hbd]
    · simp only [beq_eq_false_iff_ne, ne_eq, hbd, not_false_eq_true, if_neg,
        beq_iff_eq, if_false]
      cases hc : compare default_branch branch with
      | none => simp [hc, hbd]
      | some c =>
        by_cases ha : c.ahead_by.getD 0 = 0
        · simp [hbd, ha]
        · simp [hbd, ha]
  · unfold PruneBranches.check_branch_prunable
    simp

/-- C9: in reachability mode a PR whose commit-list fetch raises a request
error is silently dropped from the results (fail-open at the PR level),
whatever the per-commit checks would have said. -/
theorem pr_commit_fetch_fail_open
    (owner repo : String) (check : String → String → Except Unit Bool)
    (pr_data : OrphanedPrs.PRData) :
    OrphanedPrs.check_pr_commits_concurrent owner repo (Except.error ()) check pr_data
      = none := rfl

/-- C4: a commit is judged reachable iff the final compare response (after
the possible rate-limit retry) is an HTTP 200 whose status field is identical
or ahead; every other status field, any non-200 status code (including 404),
and a raised request yield a judgement of missing. -/
theorem commit_reachable_iff_identical_or_ahead
    (now : Int) (first retry : FetchOutcome) :
    OrphanedPrs.is_commit_in_branch now first retry = true
      ↔ ∃ reset body,
          (rateLimitedGet now first retry).final = FetchOutcome.resp 200 reset body
            ∧ (body.status.getD "unknown" = "identical"
                ∨ body.status.getD "unknown" = "ahead") := by
  unfold OrphanedPrs.is_commit_in_branch
  cases hfin : (rateLimitedGet now first retry).final with
  | raised => simp
  | resp code reset body =>
    by_cases h200 : code = 200
    · subst h200
      simp only [if_pos (by decide : (200 == 200) = true)]
      constructor
      · intro h
        refine ⟨reset, body, rfl, ?_⟩
        simpa [Bool.or_eq_true, beq_iff_eq] using h
      · rintro ⟨r2, b2, heq, hst⟩
        cases heq
        simpa [Bool.or_eq_true, beq_iff_eq] using hst
    · have : (code == 200) = false := by simpa using h200
      simp only [this, if_false]
      constructor
      · intro h
        by_cases h404 : code = 404
        · subst h404
          simp at h
        · have : (code == 404) = false := by simpa using h404
          simp [this] at h
      · rintro ⟨r2, b2, heq, hst⟩
        cases heq
        exact absurd rfl h200

/-- C2: reachability is fail-closed per commit: a commit whose check raised
is counted in missing_commits, and the PR is reported as orphaned exactly
when at least one of its commits is counted missing (its check did not
return True). -/
theorem reachability_fail_closed
    (owner repo : String) (commits : List String)
    (check : String → String → Except Unit Bool) (pr_data : OrphanedPrs.PRData) :
    (∀ sha ∈ commits, check sha pr_data.base_ref = Except.error () →
        sha ∈ OrphanedPrs.missingCommitsOf check pr_data.base_ref commits)
      ∧ ((OrphanedPrs.check_pr_commits_concurrent owner repo
            (Except.ok commits) check pr_data).isSome
          ↔ ∃ sha ∈ commits, check sha pr_data.base_ref ≠ Except.ok true) := by
  constructor
  · intro sha hmem herr
    unfold OrphanedPrs.missingCommitsOf
    rw [List.mem_filter]
    refine ⟨hmem, ?_⟩
    rw [herr]
  · unfold OrphanedPrs.check_pr_commits_concurrent
    simp only [Option.isSome_some, Option.isSome_none]
    by_cases hemp :
        (OrphanedPrs.missingCommitsOf check pr_data.base_ref commits).isEmpty = true
    · rw [if_pos hemp]
      simp only [Option.isSome_none, Bool.false_eq_true, false_iff]
      rw [List.isEmpty_iff] at hemp
      unfold OrphanedPrs.missingCommitsOf at hemp
      rw [List.filter_eq_nil_iff] at hemp
      rintro ⟨sha, hmem, hne⟩
      have := hemp sha hmem
      cases hc : check sha pr_data.base_ref with
      | ok b =>
        cases b with
        | true => exact hne hc
        | false => rw [hc] at this; exact this rfl
      | error e => rw [hc] at this; exact this rfl
    · rw [if_neg hemp]
      simp only [Option.isSome_some, true_iff]
      have : OrphanedPrs.missingCommitsOf check pr_data.base_ref commits ≠ [] := by
        intro h
        rw [h] at hemp
        exact hemp rfl
      rcases List.exists_mem_of_ne_nil _ this with ⟨sha, hsha⟩
      unfold OrphanedPrs.missingCommitsOf at hsha
      rw [List.mem_filter] at hsha
      refine ⟨sha, hsha.1, ?_⟩
      intro hok
      rw [hok] at hsha
      simpa using hsha.2

/-- Witness for C2: three commits, the check of commit b raises, the others
are reachable — b is counted missing and the PR is reportable. -/
theorem reachability_fail_closed_witness :
    "b" ∈ OrphanedPrs.missingCommitsOf
        (fun sha _ => if sha = "b" then Except.error () else Except.ok true)
        "release" ["a", "b", "c"]
      ∧ ((OrphanedPrs.check_pr_commits_concurrent "acme" "app"
            (Except.ok ["a", "b", "c"])
            (fun sha _ => if sha = "b" then Except.error () else Except.ok true)
            { number := 7, title := "t", html_url := "u",
              merged_at := "2024-03-03T00:00:00Z", base_ref := "release",
              head_ref := "f", user := "alice" }).isSome
          ↔ ∃ sha ∈ ["a", "b", "c"],
              (if sha = "b" then Except.error () else Except.ok true)
                ≠ Except.ok (true : Bool)) := by
  constructor
  · exact (reachability_fail_closed "acme" "app" ["a", "b", "c"]
      (fun sha _ => if sha = "b" then Except.error () else Except.ok true)
      { number := 7, title := "t", html_url := "u",
        merged_at := "2024-03-03T00:00:00Z", base_ref := "release",
        head_ref := "f", user := "alice" }).1 "b" (by simp) (by simp)
  · exact (reachability_fail_closed "acme" "app" ["a", "b", "c"]
      (fun sha _ => if sha = "b" then Except.error () else Except.ok true)
      { number := 7, title := "t", html_url := "u",
        merged_at := "2024-03-03T00:00:00Z", base_ref := "release",
        head_ref := "f", user := "alice" }).2

/-- C6 counterexample: a rate-limited gh-CLI compare (github_utils
.compare_branches) — the first invocation exits non-zero because of the rate
limit, a retry would have succeeded, yet the helper returns no comparison:
the command is invoked once, with no sleep and no retry, against the claim's
universal sleep-and-retry-once behaviour. -/
theorem gh_compare_no_retry_cex :
    GithubUtils.compare_branches
        (fun i => if i = 0 then GithubUtils.GhApiOutcome.exited 1 none
          else GithubUtils.GhApiOutcome.exited 0
            (some { ahead_by := some 2, behind_by := some 0,
                    status := some "ahead" }))
      = Except.ok none
    ∧ GithubUtils.compare_branches
        (fun _ => GithubUtils.GhApiOutcome.exited 0
          (some { ahead_by := some 2, behind_by := some 0,
                  status := some "ahead" }))
      = Except.ok (some { ahead_by := some 2, behind_by := some 0,
                          status := some "ahead" }) := by
  constructor
  · rfl
  · rfl

/-- C6 (amended): the sleep-and-retry-once behaviour holds at the three
requests-based call sites sharing the rateLimitedGet pattern
(gh_check_ahead.check_branch_exists and compare_branches,
gh_orphaned_prs.is_commit_in_branch): on a 429 first response the worker
sleeps max(1, reset - now) — at least one time-unit — retries exactly once
(two requests, never more for any pair of outcomes), and a retry that raises
or comes back non-200 is a fetch failure.  The gh-CLI-based
github_utils.compare_branches performs no rate-limit handling: it consults
only the first invocation's outcome (exactly one attempt), and a rate-limited
invocation — a non-zero gh exit — is an immediate fetch failure with no
sleep and no retry. -/
theorem rate_limit_retry_by_call_site (now : Int) (first retry : FetchOutcome)
    (attempts attempts2 : Nat → GithubUtils.GhApiOutcome) :
    (rateLimitedGet now first retry).requests ≤ 2
      ∧ (∀ reset body, first = FetchOutcome.resp 429 reset body →
          (rateLimitedGet now first retry).final = retry
            ∧ (rateLimitedGet now first retry).requests = 2
            ∧ (rateLimitedGet now first retry).sleep
                = some (max 1 (reset.getD (now + 60) - now))
            ∧ (∀ s, (rateLimitedGet now first retry).sleep = some s → 1 ≤ s)
            ∧ (retry = FetchOutcome.raised →
                CheckAhead.compare_branches now first retry = Except.error ())
            ∧ (∀ code r2 b2, retry = FetchOutcome.resp code r2 b2 → code ≠ 200 →
                CheckAhead.compare_branches now first retry
                  = Except.ok none))
      ∧ (attempts 0 = attempts2 0 →
          GithubUtils.compare_branches attempts
            = GithubUtils.compare_branches attempts2)
      ∧ (∀ returncode parsed,
          attempts 0 = GithubUtils.GhApiOutcome.exited returncode parsed →
          returncode ≠ 0 →
            GithubUtils.compare_branches attempts = Except.ok none) := by
  refine ⟨?_, ?_, ?_, ?_⟩
  · unfold rateLimitedGet
    cases first with
    | raised => simp
    | resp code reset body =>
      by_cases h : (code == 429) = true
      · simp [h]
      · simp only [Bool.not_eq_true] at h
        simp [h]
  · rintro reset body rfl
    have hget : rateLimitedGet now (FetchOutcome.resp 429 reset body) retry
        = { final := retry, requests := 2,
            sleep := some (max 1 (reset.getD (now + 60) - now)) } := by
      unfold rateLimitedGet
      simp
    refine ⟨by rw [hget], by rw [hget], by rw [hget], ?_, ?_, ?_⟩
    · intro s hs
      rw [hget] at hs
      simp only [Option.some.injEq] at hs
      rw [← hs]
      exact le_max_left 1 _
    · rintro rfl
      unfold CheckAhead.compare_branches
      rw [hget]
    · rintro code r2 b2 rfl hne
      unfold CheckAhead.compare_branches
      rw [hget]
      simp only []
      rw [if_neg (by simpa using hne)]
  · intro h0
    unfold GithubUtils.compare_branches
    rw [h0]
  · intro returncode parsed h0 hrc
    unfold GithubUtils.compare_branches
    rw [h0]
    simp [hrc]

/-- Witness for C6 (amended): at a concrete 429 first response with reset
100 and a failing (HTTP 500) retry, exactly two requests are made, the sleep
is 100 and no comparison is produced; and a gh-CLI compare whose single
invocation exits with status 1 yields no comparison. -/
theorem rate_limit_retry_by_call_site_witness :
    (rateLimitedGet 0
        (FetchOutcome.resp 429 (some 100)
          { ahead_by := none, behind_by := none, status := none })
        (FetchOutcome.resp 500 none
          { ahead_by := none, behind_by := none, status := none })).requests = 2
      ∧ (rateLimitedGet 0
          (FetchOutcome.resp 429 (some 100)
            { ahead_by := none, behind_by := none, status := none })
          (FetchOutcome.resp 500 none
            { ahead_by := none, behind_by := none, status := none })).sleep
          = some 100
      ∧ CheckAhead.compare_branches 0
          (FetchOutcome.resp 429 (some 100)
            { ahead_by := none, behind_by := none, status := none })
          (FetchOutcome.resp 500 none
            { ahead_by := none, behind_by := none, status := none })
          = Except.ok none
      ∧ GithubUtils.compare_branches
          (fun _ => GithubUtils.GhApiOutcome.exited 1 none)
          = Except.ok none := by
  have h := rate_limit_retry_by_call_site 0
      (FetchOutcome.resp 429 (some 100)
        { ahead_by := none, behind_by := none, status := none })
      (FetchOutcome.resp 500 none
        { ahead_by := none, behind_by := none, status := none })
      (fun _ => GithubUtils.GhApiOutcome.exited 1 none)
      (fun _ => GithubUtils.GhApiOutcome.exited 1 none)
  have h429 := h.2.1 (some 100)
    { ahead_by := none, behind_by := none, status := none } rfl
  refine ⟨h429.2.1, ?_, ?_, ?_⟩
  · rw [h429.2.2.1]
    norm_num
  · exact h429.2.2.2.2.2 500 none
      { ahead_by := none, behind_by := none, status := none } rfl (by norm_num)
  · exact h.2.2.2 1 none rfl (by norm_num)

/-- C5 counterexample: the gh repository listing fails outright — the
subprocess exits with status 1 — yet the wildcard run does not terminate
with a non-zero status: the helper returns an empty list, main continues
with the empty repository set and the process exits 0. -/
theorem enumeration_failure_continues_cex :
    PruneBranches.listingFails (GithubUtils.GhExec.exited 1 none) = true
      ∧ PruneBranches.enumeratePhase (GithubUtils.GhExec.exited 1 none)
          = Except.ok []
      ∧ PruneBranches.mainExitStatus (GithubUtils.GhExec.exited 1 none) = 0 := by
  refine ⟨by decide, ?_, ?_⟩ <;> rfl

/-- C5 (amended): the wildcard run exits non-zero exactly when the listing
raised an uncaught exception; a listing subprocess that completes with a
non-zero return status instead yields an empty repository list and the run
continues to a zero exit. -/
theorem exit_nonzero_iff_listing_raises (run : GithubUtils.GhExec) :
    (PruneBranches.mainExitStatus run ≠ 0 ↔ run = GithubUtils.GhExec.raisedOS)
      ∧ (∀ returncode parsed,
          run = GithubUtils.GhExec.exited returncode parsed → returncode ≠ 0 →
            PruneBranches.enumeratePhase run = Except.ok []
              ∧ PruneBranches.mainExitStatus run = 0) := by
  constructor
  · cases run with
    | raisedOS => simp [PruneBranches.mainExitStatus, PruneBranches.enumeratePhase,
        GithubUtils.get_organization_repos]
    | raisedSubprocess => simp [PruneBranches.mainExitStatus,
        PruneBranches.enumeratePhase, GithubUtils.get_organization_repos]
    | exited rc parsed =>
      simp only [PruneBranches.mainExitStatus, PruneBranches.enumeratePhase,
        GithubUtils.get_organization_repos]
      by_cases hrc : rc ≠ 0
      · simp [hrc]
      · simp only [ne_eq, hrc, not_false_eq_true, if_neg]
        cases parsed <;> simp
  · rintro returncode parsed rfl hrc
    constructor
    · simp [PruneBranches.enumeratePhase, GithubUtils.get_organization_repos, hrc]
    · simp [PruneBranches.mainExitStatus, PruneBranches.enumeratePhase,
        GithubUtils.get_organization_repos, hrc]

/-- Witness for C5 (amended): a listing subprocess exiting with status 2
leaves an empty repository list and a zero exit status. -/
theorem exit_nonzero_iff_listing_raises_witness :
    PruneBranches.enumeratePhase (GithubUtils.GhExec.exited 2 none)
        = Except.ok []
      ∧ PruneBranches.mainExitStatus (GithubUtils.GhExec.exited 2 none) = 0 :=
  (exit_nonzero_iff_listing_raises (GithubUtils.GhExec.exited 2 none)).2
    2 none rfl (by norm_num)

/-- A deduplicated list has more than one element exactly when the original
list holds two different values. -/
theorem one_lt_dedup_length_iff {β : Type} [DecidableEq β] (l : List β) :
    1 < l.dedup.length ↔ ∃ a ∈ l, ∃ b ∈ l, a ≠ b := by
  constructor
  · intro h
    rcases hd : l.dedup with _ | ⟨x, _ | ⟨y, t⟩⟩
    · rw [hd] at h
      simp at h
    · rw [hd] at h
      simp at h
    · have hx : x ∈ l := by
        rw [← List.mem_dedup, hd]
        simp
      have hy : y ∈ l := by
        rw [← List.mem_dedup, hd]
        simp
      have hnd := l.nodup_dedup
      rw [hd] at hnd
      have hxy : x ≠ y := by
        intro hcon
        rcases List.nodup_cons.mp hnd with ⟨hmem, _⟩
        rw [hcon] at hmem
        exact hmem (by simp)
      exact ⟨x, hx, y, hy, hxy⟩
  · rintro ⟨a, ha, b, hb, hab⟩
    by_contra hle
    push_neg at hle
    have ha2 : a ∈ l.dedup := List.mem_dedup.mpr ha
    have hb2 : b ∈ l.dedup := List.mem_dedup.mpr hb
    rcases hd : l.dedup with _ | ⟨x, t⟩
    · rw [hd] at ha2
      simp at ha2
    · rw [hd] at hle ha2 hb2
      have ht : t = [] := by
        rw [List.length_cons] at hle
        exact List.length_eq_zero.mp (by omega)
      rw [ht] at ha2 hb2
      simp only [List.mem_singleton] at ha2 hb2
      rw [ha2, hb2] at hab
      exact hab rfl

/-- C7 counterexample: an organization-wide pruning run whose results all
come from one repository — the spec's rule shows the repository column, the
code omits it (main consults only the distinct-repository count, never the
organization-wide flag). -/
theorem repo_column_ignores_orgwide_cex :
    PruneBranches.show_repo_column
        [{ branch := "feature-a", behind_by := 0, repository := "acme/app",
           default_branch := "main" },
         { branch := "feature-b", behind_by := 2, repository := "acme/app",
           default_branch := "main" }]
      = false
      ∧ PruneBranches.specShowRepoColumn true
          [{ branch := "feature-a", behind_by := 0, repository := "acme/app",
             default_branch := "main" },
           { branch := "feature-b", behind_by := 2, repository := "acme/app",
             default_branch := "main" }]
        = true := by
  constructor
  · decide
  · decide

/-- C7 (amended): in the pruner the repository column is shown exactly when
the result set holds two rows from different repositories, organization-wide
mode playing no part; the ahead-checker prints the REPO column
unconditionally (its header always begins with REPO); the orphaned-PR report
prints no repository column: a rendered row is unchanged under any rewriting
of the row's repository field, and the header never begins with REPO (its
columns being ID, TITLE, BRANCH, TARGET, MERGED). -/
theorem repo_column_visibility :
    (∀ rows : List PruneBranches.ReportRow,
        PruneBranches.show_repo_column rows = true
          ↔ ∃ a ∈ rows, ∃ b ∈ rows, a.repository ≠ b.repository)
      ∧ (∀ w1 w2 w3 : Nat, (CheckAhead.header w1 w2 w3).data.take 4 = "REPO".data)
      ∧ (∀ w1 w2 w3 w4 : Nat, ∀ (pr : OrphanedPrs.OrphanedPR) (r : String),
          OrphanedPrs.renderRow w1 w2 w3 w4 pr
            = OrphanedPrs.renderRow w1 w2 w3 w4 { pr with repository := r })
      ∧ (∀ w1 w2 w3 w4 : Nat,
          (OrphanedPrs.header w1 w2 w3 w4).data.take 4 ≠ "REPO".data) := by
  refine ⟨?_, ?_, ?_, ?_⟩
  · intro rows
    unfold PruneBranches.show_repo_column PruneBranches.uniqueRepositories
    rw [decide_eq_true_eq, one_lt_dedup_length_iff]
    constructor
    · rintro ⟨x, hx, y, hy, hxy⟩
      rcases List.mem_map.mp hx with ⟨a, ha, rfl⟩
      rcases List.mem_map.mp hy with ⟨b, hb, rfl⟩
      exact ⟨a, ha, b, hb, hxy⟩
    · rintro ⟨a, ha, b, hb, hab⟩
      exact ⟨a.repository, List.mem_map_of_mem _ ha,
        b.repository, List.mem_map_of_mem _ hb, hab⟩
  · intro w1 w2 w3
    show (CheckAhead.header w1 w2 w3).data.take 4 = "REPO".data
    unfold CheckAhead.header CheckAhead.ljustStr
    simp only [String.data_append, List.append_assoc]
    rw [List.take_append_of_le_length (by decide)]
    decide
  · intro w1 w2 w3 w4 pr r
    rfl
  · intro w1 w2 w3 w4 h
    unfold OrphanedPrs.header CheckAhead.ljustStr at h
    simp only [String.data_append, List.append_assoc] at h
    simp only [List.cons_append, List.nil_append, List.take_succ_cons] at h
    injection h with h1 _
    exact absurd h1 (by decide)

/-- Two sorted permutations of one another coincide whenever the sort
relation cannot hold both ways between rows that the distinguishing relation
separates: key ties are the only source of order ambiguity in a stable
sort. -/
theorem sorted_perm_eq {α : Type} (le : α → α → Bool) (D : α → α → Prop)
    (hcontra : ∀ a b, le a b = true → le b a = true → D a b → False) :
    ∀ l₁ l₂ : List α, l₁.Perm l₂ →
      List.Pairwise (fun a b => le a b = true) l₁ →
      List.Pairwise (fun a b => le a b = true) l₂ →
      List.Pairwise D l₁ → l₁ = l₂ := by
  intro l₁
  induction l₁ with
  | nil =>
    intro l₂ hp _ _ _
    exact hp.symm.eq_nil.symm
  | cons a t ih =>
    intro l₂ hp hs₁ hs₂ hD
    cases l₂ with
    | nil => exact absurd hp.eq_nil (by simp)
    | cons b t₂ =>
      rcases List.pairwise_cons.mp hs₁ with ⟨ha₁, hs₁t⟩
      rcases List.pairwise_cons.mp hs₂ with ⟨hb₂, hs₂t⟩
      rcases List.pairwise_cons.mp hD with ⟨hDa, hDt⟩
      by_cases hab : a = b
      · subst hab
        rw [ih t₂ hp.cons_inv hs₁t hs₂t hDt]
      · have hat₂ : a ∈ t₂ := by
          have hmem : a ∈ b :: t₂ := hp.mem_iff.mp (List.mem_cons_self a t)
          rcases List.mem_cons.mp hmem with h | h
          · exact absurd h hab
          · exact h
        have hbt : b ∈ t := by
          have hmem : b ∈ a :: t := hp.mem_iff.mpr (List.mem_cons_self b t₂)
          rcases List.mem_cons.mp hmem with h | h
          · exact absurd h.symm hab
          · exact h
        exact (hcontra a b (ha₁ b hbt) (hb₂ a hat₂) (hDa b hbt)).elim

/-- The prunability sort key in propositional form: lexicographic on
(repository, branch), as Python compares tuples. -/
theorem rowLe_iff (a b : PruneBranches.ReportRow) :
    PruneBranches.rowLe a b = true
      ↔ a.repository < b.repository
          ∨ (a.repository = b.repository ∧ a.branch ≤ b.branch) := by
  unfold PruneBranches.rowLe
  simp [Bool.or_eq_true, Bool.and_eq_true, decide_eq_true_eq]

/-- C8 (amended): each report's post-sort order is independent of the
arrival order provided the sort keys are pairwise distinct — the merge
timestamp for reachability rows, the (repository, branch) pair for
prunability rows, the repository name for ahead/behind rows.  (Rows that tie
on the key keep their arrival order, Python's sort being stable, so arrival
order can leak into the output exactly on key ties.) -/
theorem report_order_deterministic :
    (∀ l₁ l₂ : List OrphanedPrs.OrphanedPR, l₁.Perm l₂ →
        List.Pairwise (fun a b => a.merged_at ≠ b.merged_at) l₁ →
        OrphanedPrs.sortOrphaned l₁ = OrphanedPrs.sortOrphaned l₂)
      ∧ (∀ l₁ l₂ : List PruneBranches.ReportRow, l₁.Perm l₂ →
          List.Pairwise
            (fun a b => ¬(a.repository = b.repository ∧ a.branch = b.branch)) l₁ →
          PruneBranches.sortPrunable l₁ = PruneBranches.sortPrunable l₂)
      ∧ (∀ l₁ l₂ : List CheckAhead.AheadRow, l₁.Perm l₂ →
          List.Pairwise (fun a b => a.name ≠ b.name) l₁ →
          CheckAhead.sortAhead l₁ = CheckAhead.sortAhead l₂) := by
  refine ⟨?_, ?_, ?_⟩
  · intro l₁ l₂ hp hD
    unfold OrphanedPrs.sortOrphaned
    have htrans : ∀ a b c : OrphanedPrs.OrphanedPR,
        decide (b.merged_at ≤ a.merged_at) = true →
        decide (c.merged_at ≤ b.merged_at) = true →
        decide (c.merged_at ≤ a.merged_at) = true := by
      intro a b c h1 h2
      simp only [decide_eq_true_eq] at h1 h2 ⊢
      exact le_trans h2 h1
    have htotal : ∀ a b : OrphanedPrs.OrphanedPR,
        (decide (b.merged_at ≤ a.merged_at)
          || decide (a.merged_at ≤ b.merged_at)) = true := by
      intro a b
      simp only [Bool.or_eq_true, decide_eq_true_eq]
      exact le_total _ _
    apply sorted_perm_eq (fun a b => decide (b.merged_at ≤ a.merged_at))
        (fun a b => a.merged_at ≠ b.merged_at)
    · intro a b h1 h2 hne
      simp only [decide_eq_true_eq] at h1 h2
      exact hne (le_antisymm h2 h1)
    · exact (List.mergeSort_perm l₁ _).trans
        (hp.trans (List.mergeSort_perm l₂ _).symm)
    · exact List.sorted_mergeSort htrans htotal l₁
    · exact List.sorted_mergeSort htrans htotal l₂
    · exact (List.Perm.pairwise_iff (fun h => Ne.symm h)
        (List.mergeSort_perm l₁ _)).mpr hD
  · intro l₁ l₂ hp hD
    unfold PruneBranches.sortPrunable
    have htrans : ∀ a b c : PruneBranches.ReportRow,
        PruneBranches.rowLe a b = true → PruneBranches.rowLe b c = true →
        PruneBranches.rowLe a c = true := by
      intro a b c h1 h2
      rw [rowLe_iff] at h1 h2 ⊢
      rcases h1 with h1 | ⟨he1, hb1⟩
      · rcases h2 with h2 | ⟨he2, _⟩
        · exact Or.inl (lt_trans h1 h2)
        · exact Or.inl (he2 ▸ h1)
      · rcases h2 with h2 | ⟨he2, hb2⟩
        · exact Or.inl (he1 ▸ h2)
        · exact Or.inr ⟨he1.trans he2, le_trans hb1 hb2⟩
    have htotal : ∀ a b : PruneBranches.ReportRow,
        (PruneBranches.rowLe a b || PruneBranches.rowLe b a) = true := by
      intro a b
      simp only [Bool.or_eq_true]
      rw [rowLe_iff, rowLe_iff]
      rcases lt_trichotomy a.repository b.repository with h | h | h
      · exact Or.inl (Or.inl h)
      · rcases le_total a.branch b.branch with hb | hb
        · exact Or.inl (Or.inr ⟨h, hb⟩)
        · exact Or.inr (Or.inr ⟨h.symm, hb⟩)
      · exact Or.inr (Or.inl h)
    apply sorted_perm_eq PruneBranches.rowLe
        (fun a b => ¬(a.repository = b.repository ∧ a.branch = b.branch))
    · intro a b h1 h2 hne
      rw [rowLe_iff] at h1 h2
      rcases h1 with h1 | ⟨he1, hb1⟩
      · rcases h2 with h2 | ⟨he2, _⟩
        · exact absurd h2 (lt_asymm h1)
        · exact absurd he2.symm (ne_of_lt h1)
      · rcases h2 with h2 | ⟨he2, hb2⟩
        · exact absurd he1.symm (ne_of_lt h2)
        · exact hne ⟨he1, le_antisymm hb1 hb2⟩
    · exact (List.mergeSort_perm l₁ _).trans
        (hp.trans (List.mergeSort_perm l₂ _).symm)
    · exact List.sorted_mergeSort htrans htotal l₁
    · exact List.sorted_mergeSort htrans htotal l₂
    · exact (List.Perm.pairwise_iff
        (fun h hc => h ⟨hc.1.symm, hc.2.symm⟩)
        (List.mergeSort_perm l₁ _)).mpr hD
  · intro l₁ l₂ hp hD
    unfold CheckAhead.sortAhead
    have htrans : ∀ a b c : CheckAhead.AheadRow,
        decide (a.name ≤ b.name) = true → decide (b.name ≤ c.name) = true →
        decide (a.name ≤ c.name) = true := by
      intro a b c h1 h2
      simp only [decide_eq_true_eq] at h1 h2 ⊢
      exact le_trans h1 h2
    have htotal : ∀ a b : CheckAhead.AheadRow,
        (decide (a.name ≤ b.name) || decide (b.name ≤ a.name)) = true := by
      intro a b
      simp only [Bool.or_eq_true, decide_eq_true_eq]
      exact le_total _ _
    apply sorted_perm_eq (fun a b => decide (a.name ≤ b.name))
        (fun a b => a.name ≠ b.name)
    · intro a b h1 h2 hne
      simp only [decide_eq_true_eq] at h1 h2
      exact hne (le_antisymm h1 h2)
    · exact (List.mergeSort_perm l₁ _).trans
        (hp.trans (List.mergeSort_perm l₂ _).symm)
    · exact List.sorted_mergeSort htrans htotal l₁
    · exact List.sorted_mergeSort htrans htotal l₂
    · exact (List.Perm.pairwise_iff (fun h => Ne.symm h)
        (List.mergeSort_perm l₁ _)).mpr hD

/-- C8 counterexample: two reachability rows that share a merge timestamp —
the two arrival orders of one and the same result set sort to different
outputs, so the post-sort report is not a function of the result set
alone. -/
theorem sort_tie_arrival_order_cex :
    ([OrphanedPrs.sampleTieA, OrphanedPrs.sampleTieB] :
        List OrphanedPrs.OrphanedPR).Perm
        [OrphanedPrs.sampleTieB, OrphanedPrs.sampleTieA]
      ∧ OrphanedPrs.sortOrphaned [OrphanedPrs.sampleTieA, OrphanedPrs.sampleTieB]
          ≠ OrphanedPrs.sortOrphaned
              [OrphanedPrs.sampleTieB, OrphanedPrs.sampleTieA] := by
  constructor
  · exact List.Perm.swap _ _ _
  · have h1 : OrphanedPrs.sortOrphaned
        [OrphanedPrs.sampleTieA, OrphanedPrs.sampleTieB]
        = [OrphanedPrs.sampleTieA, OrphanedPrs.sampleTieB] :=
      List.mergeSort_of_sorted (by
        refine List.Pairwise.cons ?_ (List.pairwise_singleton _ _)
        intro x hx
        rcases List.mem_singleton.mp hx with rfl
        simp only [OrphanedPrs.sampleTieA, OrphanedPrs.sampleTieB,
          decide_eq_true_eq]
        exact le_refl _)
    have h2 : OrphanedPrs.sortOrphaned
        [OrphanedPrs.sampleTieB, OrphanedPrs.sampleTieA]
        = [OrphanedPrs.sampleTieB, OrphanedPrs.sampleTieA] :=
      List.mergeSort_of_sorted (by
        refine List.Pairwise.cons ?_ (List.pairwise_singleton _ _)
        intro x hx
        rcases List.mem_singleton.mp hx with rfl
        simp only [OrphanedPrs.sampleTieA, OrphanedPrs.sampleTieB,
          decide_eq_true_eq]
        exact le_refl _)
    rw [h1, h2]
    simp [OrphanedPrs.sampleTieA, OrphanedPrs.sampleTieB]

/-- Witness for C8 (amended): two reachability rows with distinct merge
timestamps sort identically from either arrival order. -/
theorem report_order_deterministic_witness :
    OrphanedPrs.sortOrphaned [OrphanedPrs.sampleTieA, OrphanedPrs.sampleLater]
      = OrphanedPrs.sortOrphaned
          [OrphanedPrs.sampleLater, OrphanedPrs.sampleTieA] :=
  report_order_deterministic.1
    [OrphanedPrs.sampleTieA, OrphanedPrs.sampleLater]
    [OrphanedPrs.sampleLater, OrphanedPrs.sampleTieA]
    (List.Perm.swap _ _ _)
    (by
      refine List.Pairwise.cons ?_ (List.pairwise_singleton _ _)
      intro x hx
      rcases List.mem_singleton.mp hx with rfl
      simp [OrphanedPrs.sampleTieA, OrphanedPrs.sampleLater])

/-- The pagination loop collects at most 100 PRs per remaining page: from
page p ≤ 10 it returns at most 100 * (11 - p) entries when every search page
holds at most 100 items. -/
theorem fetchPagesLoop_length_le {α : Type} (pages : Nat → List α)
    (fetchPR : α → Option OrphanedPrs.PRData)
    (hlen : ∀ p, (pages p).length ≤ 100) :
    ∀ n p, 11 - p = n → p ≤ 10 →
      (OrphanedPrs.fetchPagesLoop pages fetchPR p).length ≤ 100 * (11 - p) := by
  intro n
  induction n using Nat.strong_induction_on with
  | _ n ih =>
    intro p hn hp
    rw [OrphanedPrs.fetchPagesLoop]
    dsimp only
    split
    · simp
    · split
      · exact le_trans (le_trans (List.length_filterMap_le _ _) (hlen p))
          (by omega)
      · rename_i hcond
        push_neg at hcond
        rw [List.length_append]
        have hrec := ih (11 - (p + 1)) (by omega) (p + 1) rfl (by omega)
        have hprs := le_trans (List.length_filterMap_le fetchPR (pages p))
          (hlen p)
        omega

/-- Pages beyond the tenth are never consulted: from any page p ≤ 10 the
loop's output agrees for two page oracles that agree on pages up to 10. -/
theorem fetchPagesLoop_agree {α : Type} (pages pages2 : Nat → List α)
    (fetchPR : α → Option OrphanedPrs.PRData)
    (hagree : ∀ p, p ≤ 10 → pages p = pages2 p) :
    ∀ n p, 11 - p = n → p ≤ 10 →
      OrphanedPrs.fetchPagesLoop pages fetchPR p
        = OrphanedPrs.fetchPagesLoop pages2 fetchPR p := by
  intro n
  induction n using Nat.strong_induction_on with
  | _ n ih =>
    intro p hn hp
    have hpp : pages p = pages2 p := hagree p hp
    conv_lhs => rw [OrphanedPrs.fetchPagesLoop]
    conv_rhs => rw [OrphanedPrs.fetchPagesLoop]
    dsimp only
    rw [← hpp]
    split
    · rfl
    · split
      · rfl
      · rename_i hcond
        push_neg at hcond
        rw [ih (11 - (p + 1)) (by omega) (p + 1) rfl (by omega)]

/-- C10: reachability mode examines at most 1000 merged PRs per repository —
when every search page holds at most 100 items the collected list has at most
1000 entries, and the collected list is unchanged under any modification of
the search results past page 10, so a merged PR beyond the first 1000 (in
the requested update-descending order) is never consulted. -/
theorem merged_pr_search_capped {α : Type} (pages pages2 : Nat → List α)
    (fetchPR : α → Option OrphanedPrs.PRData) :
    ((∀ p, (pages p).length ≤ 100) →
        (OrphanedPrs.fetch_merged_prs pages fetchPR).length ≤ 1000)
      ∧ ((∀ p, p ≤ 10 → pages p = pages2 p) →
          OrphanedPrs.fetch_merged_prs pages fetchPR
            = OrphanedPrs.fetch_merged_prs pages2 fetchPR) := by
  constructor
  · intro hlen
    have h := fetchPagesLoop_length_le pages fetchPR hlen 10 1 rfl (by omega)
    unfold OrphanedPrs.fetch_merged_prs
    omega
  · intro hagree
    unfold OrphanedPrs.fetch_merged_prs
    exact fetchPagesLoop_agree pages pages2 fetchPR hagree 10 1 rfl (by omega)

/-- Witness for C10 at concrete page oracles: the empty search result
respects the cap, and an oracle differing only past page 10 collects the
same PRs. -/
theorem merged_pr_search_capped_witness :
    (OrphanedPrs.fetch_merged_prs (fun _ => ([] : List String))
        (fun _ => none)).length ≤ 1000
      ∧ OrphanedPrs.fetch_merged_prs (fun _ => ([] : List String))
          (fun _ => none)
          = OrphanedPrs.fetch_merged_prs
              (fun p => if p ≤ 10 then ([] : List String) else ["late"])
              (fun _ => none) := by
  constructor
  · exact (merged_pr_search_capped (fun _ => ([] : List String))
      (fun _ => ([] : List String)) (fun _ => none)).1 (fun p => by simp)
  · exact (merged_pr_search_capped (fun _ => ([] : List String))
      (fun p => if p ≤ 10 then ([] : List String) else ["late"])
      (fun _ => none)).2 (fun p hp => (if_pos hp).symm)
